import Mathlib

/-!
Shallow embedding of the Provider Selection & Fallback Engine of the
domeclaw repository: the model registry with round-robin selection
(pkg/providers ModelRegistry), the config-level round-robin resolver
(pkg/config Config.GetModelConfig), protocol parsing
(ModelConfig.ParseProtocol), and — modelled from the spec, since only
documentation of them ships in the source tree — the cooldown tracker
and the fallback orchestrator.

Go maps are embedded as total functions with the zero value for absent
keys (`String → List ModelConfig`: absent ≡ empty slice, which is
faithful because no operation of the source ever stores an empty slice
under a key; `String → Option Nat` for the counter map, where `none` is
an absent key).  The `atomic.Uint64` round-robin counter is embedded as
a `Nat` reduced modulo `2 ^ 64` at each increment, matching Go's
wrap-around semantics of `Add(1)`.
-/

namespace DomeClaw

/-- Wrap-around modulus of Go's `uint64` / `atomic.Uint64`. -/
def uint64Mod : Nat := 2 ^ 64

/-- Embeds the `ModelConfig` struct of pkg/config (part_007): a
model-centric provider configuration.  Field names follow the source. -/
structure ModelConfig where
  ModelName : String
  Model : String
  APIBase : String := ""
  APIKey : String := ""
  Proxy : String := ""
  AuthMethod : String := ""
  ConnectMode : String := ""
  RPM : Nat := 0
  MaxTokensField : String := ""
  deriving DecidableEq, Inhabited, Repr

/-- Splits a character list at the first `'/'`, returning the parts
before and after it; `none` when no `'/'` occurs.  This is the loop of
`ModelConfig.ParseProtocol` (`for i := 0; i < len(model); i++`): Go
scans bytes, but `'/'` (ASCII 0x2F) can only occur in UTF-8 as the
character `'/'` itself, so the byte-level first occurrence coincides
with the character-level one. -/
def splitAtFirstSlash : List Char → Option (List Char × List Char)
  | [] => none
  | ch :: rest =>
    if ch = '/' then some ([], rest)
    else
      match splitAtFirstSlash rest with
      | some (p, m) => some (ch :: p, m)
      | none => none

/-- Embeds `ModelConfig.ParseProtocol` of pkg/config (part_007):
extracts the protocol prefix and model identifier from the `Model`
field, defaulting to protocol `"openai"` when no `'/'` prefix is
present. -/
def ModelConfig.ParseProtocol (c : ModelConfig) : String × String :=
  match splitAtFirstSlash c.Model.data with
  | some (p, m) => (String.mk p, String.mk m)
  | none => ("openai", c.Model)

/-- Embeds the `ModelRegistry` struct of pkg/providers (part_003):
`configs` maps a model name to its config group, `counters` to its
round-robin counter (`none` = no counter in the map). -/
structure ModelRegistry where
  configs : String → List ModelConfig
  counters : String → Option Nat

theorem ModelRegistry.ext {r s : ModelRegistry}
    (h1 : r.configs = s.configs) (h2 : r.counters = s.counters) : r = s := by
  cases r; cases s; simp_all

/-- One step of the grouping loop of `NewModelRegistry`:
`r.configs[cfg.ModelName] = append(r.configs[cfg.ModelName], cfg)`. -/
def addToGroup (m : String → List ModelConfig) (cfg : ModelConfig) :
    String → List ModelConfig :=
  fun n => if n = cfg.ModelName then m n ++ [cfg] else m n

/-- Embeds `NewModelRegistry` (part_003): groups the model list by
`ModelName`, then initialises a (zero) counter for every name whose
group has more than one config. -/
def NewModelRegistry (modelList : List ModelConfig) : ModelRegistry :=
  let cfgs := modelList.foldl addToGroup (fun _ => [])
  { configs := cfgs
    counters := fun n => if 1 < (cfgs n).length then some 0 else none }

/-- Embeds `ModelRegistry.GetModelConfig` (part_003).  Returns the
selected config (or the not-found error) together with the registry
after the call, since the round-robin counter is mutated
(`counter.Add(1)` wraps modulo `2 ^ 64` and returns the new value). -/
def ModelRegistry.GetModelConfig (r : ModelRegistry) (modelName : String) :
    Except String ModelConfig × ModelRegistry :=
  let configs := r.configs modelName
  if configs.length = 0 then
    (Except.error ("model \"" ++ modelName ++ "\" not found"), r)
  else if configs.length = 1 then
    (Except.ok (configs.getD 0 default), r)
  else
    match r.counters modelName with
    | none =>
      -- "Should not happen, but handle gracefully"
      (Except.ok (configs.getD 0 default), r)
    | some c =>
      let c' := (c + 1) % uint64Mod
      let idx := c' % configs.length
      (Except.ok (configs.getD idx default),
       { r with counters := fun n => if n = modelName then some c' else r.counters n })

/-- Embeds `ModelRegistry.AddConfig` (part_003): appends the config to
its name's group and creates a zero counter when the group now has more
than one config and no counter exists yet. -/
def ModelRegistry.AddConfig (r : ModelRegistry) (cfg : ModelConfig) : ModelRegistry :=
  let configs' := fun n => if n = cfg.ModelName then r.configs n ++ [cfg] else r.configs n
  { configs := configs'
    counters :=
      if 1 < (configs' cfg.ModelName).length ∧ r.counters cfg.ModelName = none then
        fun n => if n = cfg.ModelName then some 0 else r.counters n
      else r.counters }

/-- Embeds `ModelRegistry.RemoveConfig` (part_003): deletes the name's
group and its counter. -/
def ModelRegistry.RemoveConfig (r : ModelRegistry) (modelName : String) : ModelRegistry :=
  { configs := fun n => if n = modelName then [] else r.configs n
    counters := fun n => if n = modelName then none else r.counters n }

/-- Embeds `ModelRegistry.ConfigCount` (part_003): `len(r.configs[modelName])`. -/
def ModelRegistry.ConfigCount (r : ModelRegistry) (modelName : String) : Nat :=
  (r.configs modelName).length

/-- `k` sequential `GetModelConfig` calls for the same name, threading
the registry state; returns the list of results and the final state. -/
def iterateResolve (r : ModelRegistry) (n : String) : Nat → List (Except String ModelConfig) × ModelRegistry
  | 0 => ([], r)
  | k + 1 =>
    let s := r.GetModelConfig n
    let rest := iterateResolve s.2 n k
    (s.1 :: rest.1, rest.2)

/-- Embeds the slice of the `Config` struct of pkg/config (part_007)
that `Config.GetModelConfig` reads: the flat `ModelList` and the lazily
populated round-robin counter map `rrCounters`. -/
structure Config where
  ModelList : List ModelConfig
  rrCounters : String → Option Nat

/-- Embeds `Config.GetModelConfig` (part_007): filters `ModelList` for
configs whose `ModelName` matches, returns the single match directly,
and otherwise round-robins with a counter that is created at zero on
first use (`counter.Add(1)` wraps modulo `2 ^ 64` and returns the new
value). -/
def Config.GetModelConfig (c : Config) (modelName : String) :
    Except String ModelConfig × Config :=
  let matchList := -- Go: matches
     c.ModelList.filter (fun m => m.ModelName = modelName)
  if matchList.length = 0 then
    (Except.error ("model \"" ++ modelName ++ "\" not found in model_list or providers"), c)
  else if matchList.length = 1 then
    (Except.ok (matchList.getD 0 default), c)
  else
    let cnt :=
      match c.rrCounters modelName with
      | some v => v
      | none => 0
    let c' := (cnt + 1) % uint64Mod
    let idx := c' % matchList.length
    (Except.ok (matchList.getD idx default),
     { c with rrCounters := fun n => if n = modelName then some c' else c.rrCounters n })

/-- Modelled from the spec (§4.2) and docs/providers/multi-provider-fallback.md;
the error-classifier implementation is not part of the source tree.  The
fixed taxonomy of classified error kinds. -/
inductive ErrorKind where
  | RateLimit
  | Timeout
  | ServerError
  | Billing
  | Auth
  | FormatError
  | UnsupportedInput
  | UserAbort
  | Unknown
  deriving DecidableEq, Repr

/-- Modelled from the spec (§4.2 taxonomy table): which error kinds are
retriable. -/
def retriable : ErrorKind → Bool
  | ErrorKind.RateLimit => true
  | ErrorKind.Timeout => true
  | ErrorKind.ServerError => true
  | ErrorKind.Billing => true
  | ErrorKind.Auth => true
  | ErrorKind.FormatError => false
  | ErrorKind.UnsupportedInput => false
  | ErrorKind.UserAbort => false
  | ErrorKind.Unknown => false

/-- Modelled from the spec (§4.3 fixed durations, in seconds):
RateLimit 60, Timeout 30, ServerError 120, Auth 300, Billing 120.
Non-retriable kinds never reach the duration table; they are mapped to
zero here. -/
def durationFor : ErrorKind → Nat
  | ErrorKind.RateLimit => 60
  | ErrorKind.Timeout => 30
  | ErrorKind.ServerError => 120
  | ErrorKind.Auth => 300
  | ErrorKind.Billing => 120
  | _ => 0

/-- Modelled from the spec (§3 CooldownEntry): per-endpoint suppression
state. -/
structure CooldownEntry where
  suppressedUntil : Nat
  lastErrorKind : ErrorKind
  deriving DecidableEq

/-- Modelled from the spec (§4.3): the cooldown tracker's map from
endpoint identity to its suppression entry (`none` = no entry).  Time
is absolute seconds as `Nat`. -/
structure CooldownTracker where
  entries : String → Option CooldownEntry

/-- Modelled from the spec (§4.3): eligible iff no entry exists or the
current time has reached `suppressedUntil`. -/
def CooldownTracker.isEligible (t : CooldownTracker) (id : String) (now : Nat) : Bool :=
  match t.entries id with
  | none => true
  | some e => decide (e.suppressedUntil ≤ now)

/-- Modelled from the spec (§4.3): a retriable kind sets/refreshes the
entry with `suppressedUntil = now + durationFor kind`; non-retriable
kinds leave the tracker untouched. -/
def CooldownTracker.recordFailure (t : CooldownTracker) (id : String)
    (kind : ErrorKind) (now : Nat) : CooldownTracker :=
  if retriable kind then
    { entries := fun i =>
        if i = id then some { suppressedUntil := now + durationFor kind, lastErrorKind := kind }
        else t.entries i }
  else t

/-- Modelled from the spec (§4.3): a success deletes any entry for the
identity. -/
def CooldownTracker.recordSuccess (t : CooldownTracker) (id : String) : CooldownTracker :=
  { entries := fun i => if i = id then none else t.entries i }

/-- Modelled from the spec (§4.3): the cooldown identity of an endpoint
is derived from the concrete target identifier plus the credential
fingerprint, not the logical name. -/
def endpointIdentity (cfg : ModelConfig) : String :=
  cfg.Model ++ "|" ++ cfg.APIKey

/-- Modelled from the spec (§3 AttemptRecord): the outcome of one
attempt in a fallback walk. -/
inductive Outcome where
  | success
  | retriableFailure
  | nonRetriableFailure
  | skippedCooldown
  deriving DecidableEq, Repr

/-- Modelled from the spec (§3 AttemptRecord): one entry of the
fallback walk's diagnostic trail (`chosenEndpoint = none` means the
candidate was skipped because its endpoint was cooling down; the
real-time `elapsed` field is not modelled). -/
structure AttemptRecord where
  candidateName : String
  chosenEndpoint : Option String
  outcome : Outcome
  errorKind : Option ErrorKind
  deriving DecidableEq, Repr

/-- Modelled from the spec (§4.4/§7): the caller-visible result of
`execute` — success, a single non-retriable classified error, or
exhaustion with the attempt trail. -/
inductive ExecResult (α : Type) where
  | ok : α → ExecResult α
  | nonRetriable : ErrorKind → ExecResult α
  | exhausted : List AttemptRecord → ExecResult α
  deriving DecidableEq

/-- Modelled from the spec (§4.4 state machine): walks the candidate
list in order.  The work function returns either a value or the
classified kind of its failure (classification is the pure, deterministic
`classify` of §4.2 applied to the raw error inside the call).  Returns
the result, the emitted attempt trail (§6 outbound events), and the
final registry and tracker states.  An unresolvable candidate is a
silent skip (§7). -/
def executeAux {α : Type} (now : Nat) (work : ModelConfig → Except ErrorKind α) :
    ModelRegistry → CooldownTracker → List String → List AttemptRecord →
    ExecResult α × List AttemptRecord × ModelRegistry × CooldownTracker
  | reg, cool, [], attempts => (ExecResult.exhausted attempts.reverse, attempts.reverse, reg, cool)
  | reg, cool, name :: rest, attempts =>
    match reg.GetModelConfig name with
    | (Except.error _, reg') => executeAux now work reg' cool rest attempts
    | (Except.ok cfg, reg') =>
      let id := endpointIdentity cfg
      if cool.isEligible id now then
        match work cfg with
        | Except.ok v =>
          let att : AttemptRecord := ⟨name, some id, Outcome.success, none⟩
          (ExecResult.ok v, (att :: attempts).reverse, reg', cool.recordSuccess id)
        | Except.error k =>
          if retriable k then
            executeAux now work reg' (cool.recordFailure id k now) rest
              (⟨name, some id, Outcome.retriableFailure, some k⟩ :: attempts)
          else
            (ExecResult.nonRetriable k,
             ((⟨name, some id, Outcome.nonRetriableFailure, some k⟩ : AttemptRecord) :: attempts).reverse,
             reg', cool)
      else
        executeAux now work reg' cool rest
          (⟨name, none, Outcome.skippedCooldown, none⟩ :: attempts)

/-- Modelled from the spec (§4.4 contract): the fallback orchestrator's
entry point; the candidate sequence is the primary followed by the
fallback names, in order, duplicates preserved. -/
def execute {α : Type} (reg : ModelRegistry) (cool : CooldownTracker) (now : Nat)
    (primaryName : String) (fallbackNames : List String)
    (work : ModelConfig → Except ErrorKind α) :
    ExecResult α × List AttemptRecord × ModelRegistry × CooldownTracker :=
  executeAux now work reg cool (primaryName :: fallbackNames) []

/-! Concrete fixtures used by witnesses and counterexamples. -/

/-- A concrete config under logical name `"m"`. -/
def cfgA : ModelConfig := { ModelName := "m", Model := "prov/a" }

/-- A second concrete config under logical name `"m"`. -/
def cfgB : ModelConfig := { ModelName := "m", Model := "prov/b" }

/-- A third concrete config under logical name `"m"`. -/
def cfgC : ModelConfig := { ModelName := "m", Model := "prov/c" }

/-! Helper lemmas about the registry operations. -/

theorem foldl_addToGroup (l : List ModelConfig) (m : String → List ModelConfig) (n : String) :
    (l.foldl addToGroup m) n = m n ++ l.filter (fun c => c.ModelName = n) := by
  induction l generalizing m with
  | nil => simp
  | cons c l ih =>
    simp only [List.foldl_cons, ih, List.filter_cons]
    by_cases h : c.ModelName = n
    · simp [addToGroup, h]
    · simp [addToGroup, h, Ne.symm h]

theorem NewModelRegistry_configs (l : List ModelConfig) (n : String) :
    (NewModelRegistry l).configs n = l.filter (fun c => c.ModelName = n) := by
  simp [NewModelRegistry, foldl_addToGroup]

theorem NewModelRegistry_counters (l : List ModelConfig) (n : String) :
    (NewModelRegistry l).counters n =
      if 1 < (l.filter (fun c => c.ModelName = n)).length then some 0 else none := by
  simp [NewModelRegistry, foldl_addToGroup]

theorem GetModelConfig_single (r : ModelRegistry) (n : String) (a : ModelConfig)
    (h : r.configs n = [a]) :
    r.GetModelConfig n = (Except.ok a, r) := by
  simp [ModelRegistry.GetModelConfig, h]

theorem GetModelConfig_multi (r : ModelRegistry) (n : String) (c : Nat)
    (hlen : 1 < (r.configs n).length) (hc : r.counters n = some c)
    (hlt : c + 1 < uint64Mod) :
    r.GetModelConfig n =
      (Except.ok ((r.configs n).getD ((c + 1) % (r.configs n).length) default),
       { configs := r.configs,
         counters := fun m => if m = n then some (c + 1) else r.counters m }) := by
  have h0 : ¬ (r.configs n).length = 0 := by omega
  have h1 : ¬ (r.configs n).length = 1 := by omega
  simp [ModelRegistry.GetModelConfig, h0, h1, hc, Nat.mod_eq_of_lt hlt]

theorem iterateResolve_single (r : ModelRegistry) (n : String) (a : ModelConfig) (k : Nat)
    (h : r.configs n = [a]) :
    iterateResolve r n k = (List.replicate k (Except.ok a), r) := by
  induction k with
  | zero => simp [iterateResolve]
  | succ k ih => simp [iterateResolve, GetModelConfig_single r n a h, ih, List.replicate_succ]

theorem iterateResolve_multi (k : Nat) (r : ModelRegistry) (n : String) (c : Nat)
    (hlen : 1 < (r.configs n).length) (hc : r.counters n = some c)
    (hlt : c + k < uint64Mod) :
    (iterateResolve r n k).1 =
      (List.range k).map
        (fun i => Except.ok ((r.configs n).getD ((c + 1 + i) % (r.configs n).length) default)) ∧
    (iterateResolve r n k).2.configs = r.configs := by
  induction k generalizing r c with
  | zero => simp [iterateResolve]
  | succ k ih =>
    have hstep := GetModelConfig_multi r n c hlen hc (by omega)
    have hres := ih
      { configs := r.configs,
        counters := fun m => if m = n then some (c + 1) else r.counters m }
      (c + 1) hlen (by simp) (by omega)
    simp only [iterateResolve, hstep] at *
    refine ⟨?_, hres.2⟩
    rw [hres.1, List.range_succ_eq_map, List.map_cons, List.map_map]
    congr 1
    apply List.map_congr_left
    intro i _
    have h2 : c + 1 + 1 + i = c + 1 + (i + 1) := by omega
    simp only [Function.comp_apply, h2]

theorem splitAtFirstSlash_none (l : List Char) (h : '/' ∉ l) :
    splitAtFirstSlash l = none := by
  induction l with
  | nil => rfl
  | cons ch rest ih =>
    simp only [List.mem_cons, not_or] at h
    simp [splitAtFirstSlash, Ne.symm h.1, ih h.2]

theorem splitAtFirstSlash_append (pre post : List Char) (h : '/' ∉ pre) :
    splitAtFirstSlash (pre ++ '/' :: post) = some (pre, post) := by
  induction pre with
  | nil => simp [splitAtFirstSlash]
  | cons ch rest ih =>
    simp only [List.mem_cons, not_or] at h
    simp [splitAtFirstSlash, Ne.symm h.1, ih h.2]

/-- A registry holding exactly one config (`cfgA`) under name `"m"`;
used by several witnesses. -/
def singleReg : ModelRegistry := NewModelRegistry [cfgA]

/-- Claim C9: `ParseProtocol` splits the `Model` field at its first
`'/'` into protocol and model identifier, and for a `Model` containing
no `'/'` returns protocol `"openai"` with the whole string as the
model identifier. -/
theorem C9_parse_protocol (c : ModelConfig) :
    (∀ pre post, c.Model.data = pre ++ '/' :: post → '/' ∉ pre →
        c.ParseProtocol = (String.mk pre, String.mk post)) ∧
    ('/' ∉ c.Model.data → c.ParseProtocol = ("openai", c.Model)) := by
  constructor
  · intro pre post hdata hpre
    simp [ModelConfig.ParseProtocol, hdata, splitAtFirstSlash_append pre post hpre]
  · intro h
    simp [ModelConfig.ParseProtocol, splitAtFirstSlash_none _ h]

/-- Witness for C9: `"prov/a"` parses to `("prov", "a")` and the
prefix-free `"gpt-4o"` defaults to protocol `"openai"`. -/
theorem C9_parse_protocol_witness :
    (cfgA.Model.data = "prov".data ++ '/' :: "a".data ∧ '/' ∉ "prov".data ∧
      cfgA.ParseProtocol = (String.mk "prov".data, String.mk "a".data)) ∧
    ('/' ∉ ("gpt-4o" : String).data ∧
      ({ ModelName := "m", Model := "gpt-4o" } : ModelConfig).ParseProtocol = ("openai", "gpt-4o")) :=
  ⟨⟨by decide, by decide,
    (C9_parse_protocol cfgA).1 "prov".data "a".data (by decide) (by decide)⟩,
   ⟨by decide,
    (C9_parse_protocol { ModelName := "m", Model := "gpt-4o" }).2 (by decide)⟩⟩

/-- Claim C3: after `recordFailure id RateLimit t0`, the endpoint is
ineligible at `t0 + 59` and eligible again at `t0 + 61` (the RateLimit
cooldown lasts 60 seconds). -/
theorem C3_rate_limit_cooldown (t : CooldownTracker) (id : String) (t0 : Nat) :
    (t.recordFailure id ErrorKind.RateLimit t0).isEligible id (t0 + 59) = false ∧
    (t.recordFailure id ErrorKind.RateLimit t0).isEligible id (t0 + 61) = true := by
  refine ⟨?_, ?_⟩ <;>
    simp [CooldownTracker.recordFailure, CooldownTracker.isEligible, retriable, durationFor]

/-- Claim C5: for a name with exactly one registered config, any number
of sequential resolves returns that config every time and leaves the
whole registry state (counters included) unchanged. -/
theorem C5_single_record_shortcut (r : ModelRegistry) (n : String) (a : ModelConfig) (k : Nat)
    (h : r.configs n = [a]) :
    (iterateResolve r n k).1 = List.replicate k (Except.ok a) ∧
    (iterateResolve r n k).2 = r := by
  simp [iterateResolve_single r n a k h]

/-- Witness for C5: five resolves of the single-record registry. -/
theorem C5_single_record_shortcut_witness :
    singleReg.configs "m" = [cfgA] ∧
    ((iterateResolve singleReg "m" 5).1 = List.replicate 5 (Except.ok cfgA) ∧
     (iterateResolve singleReg "m" 5).2 = singleReg) :=
  ⟨by decide, C5_single_record_shortcut singleReg "m" cfgA 5 (by decide)⟩

/-- Claim C6: `GetModelConfig` returns an error exactly when no config
is registered under the name; whenever the group is non-empty it
returns one of the group's configs and no error. -/
theorem C6_resolve_error_iff (r : ModelRegistry) (n : String) :
    ((∃ msg, (r.GetModelConfig n).1 = Except.error msg) ↔ r.configs n = []) ∧
    (r.configs n ≠ [] → ∃ cfg, cfg ∈ r.configs n ∧ (r.GetModelConfig n).1 = Except.ok cfg) := by
  have main : r.configs n ≠ [] →
      ∃ cfg, cfg ∈ r.configs n ∧ (r.GetModelConfig n).1 = Except.ok cfg := by
    intro hne
    have hlen0 : ¬ (r.configs n).length = 0 := by simpa using hne
    by_cases hlen1 : (r.configs n).length = 1
    · obtain ⟨a, ha⟩ := List.length_eq_one.mp hlen1
      exact ⟨a, by simp [ha], by simp [ModelRegistry.GetModelConfig, ha]⟩
    · cases hctr : r.counters n with
      | none =>
        refine ⟨(r.configs n).getD 0 default, ?_, ?_⟩
        · rw [List.getD_eq_getElem _ _ (by omega)]
          exact List.getElem_mem _
        · simp [ModelRegistry.GetModelConfig, hlen0, hlen1, hctr]
      | some c =>
        refine ⟨(r.configs n).getD (((c + 1) % uint64Mod) % (r.configs n).length) default, ?_, ?_⟩
        · rw [List.getD_eq_getElem _ _ (Nat.mod_lt _ (by omega))]
          exact List.getElem_mem _
        · simp [ModelRegistry.GetModelConfig, hlen0, hlen1, hctr]
  refine ⟨⟨?_, ?_⟩, main⟩
  · rintro ⟨msg, hmsg⟩
    by_contra hne
    obtain ⟨cfg, _, hok⟩ := main hne
    rw [hok] at hmsg
    cases hmsg
  · intro hempty
    exact ⟨"model \"" ++ n ++ "\" not found", by simp [ModelRegistry.GetModelConfig, hempty]⟩

/-- Witness for C6: the single-record registry resolves `"m"` without
error to a registered config, and resolves the unknown name `"x"` to an
error. -/
theorem C6_resolve_error_iff_witness :
    (singleReg.configs "m" ≠ [] ∧
      ∃ cfg, cfg ∈ singleReg.configs "m" ∧ (singleReg.GetModelConfig "m").1 = Except.ok cfg) ∧
    ((∃ msg, (singleReg.GetModelConfig "x").1 = Except.error msg) ↔ singleReg.configs "x" = []) :=
  ⟨⟨by decide, (C6_resolve_error_iff singleReg "m").2 (by decide)⟩,
   (C6_resolve_error_iff singleReg "x").1⟩

/-- Claim C7: `AddConfig` appends the config at the end of its name's
group (creating the group when absent, never rejecting duplicates),
other groups are untouched, `ConfigCount` of that name grows by one,
and `ConfigCount` on a freshly built registry counts exactly the
records registered under the name (0 when absent). -/
theorem C7_register_append (r : ModelRegistry) (cfg : ModelConfig) (l : List ModelConfig) (n : String) :
    (r.AddConfig cfg).configs cfg.ModelName = r.configs cfg.ModelName ++ [cfg] ∧
    (n ≠ cfg.ModelName → (r.AddConfig cfg).configs n = r.configs n) ∧
    (r.AddConfig cfg).ConfigCount cfg.ModelName = r.ConfigCount cfg.ModelName + 1 ∧
    (NewModelRegistry l).ConfigCount n = (l.filter (fun c => c.ModelName = n)).length := by
  refine ⟨by simp [ModelRegistry.AddConfig], ?_,
    by simp [ModelRegistry.AddConfig, ModelRegistry.ConfigCount],
    by simp [ModelRegistry.ConfigCount, NewModelRegistry_configs]⟩
  intro hn
  simp [ModelRegistry.AddConfig, hn]

/-- Witness for C7: registering `cfgA` a second time (a duplicate)
into the single-record registry. -/
theorem C7_register_append_witness :
    ("other" ≠ cfgA.ModelName ∧
      (singleReg.AddConfig cfgA).configs "other" = singleReg.configs "other") ∧
    (singleReg.AddConfig cfgA).configs cfgA.ModelName = singleReg.configs cfgA.ModelName ++ [cfgA] ∧
    (singleReg.AddConfig cfgA).ConfigCount cfgA.ModelName = singleReg.ConfigCount cfgA.ModelName + 1 ∧
    (NewModelRegistry [cfgA, cfgB]).ConfigCount "m" =
      ([cfgA, cfgB].filter (fun c => c.ModelName = "m")).length :=
  ⟨⟨by decide, (C7_register_append singleReg cfgA [cfgA, cfgB] "other").2.1 (by decide)⟩,
   (C7_register_append singleReg cfgA [cfgA, cfgB] "m").1,
   (C7_register_append singleReg cfgA [cfgA, cfgB] "m").2.2.1,
   (C7_register_append singleReg cfgA [cfgA, cfgB] "m").2.2.2⟩

/-- Claim C8: `RemoveConfig` deletes the whole group and its counter
(afterwards the count is 0, resolution errors, and the counter is
gone), it is idempotent, and removing a name with no group and no
counter leaves the registry exactly unchanged. -/
theorem C8_unregister (r : ModelRegistry) (n : String) :
    (r.RemoveConfig n).ConfigCount n = 0 ∧
    (∃ msg, ((r.RemoveConfig n).GetModelConfig n).1 = Except.error msg) ∧
    (r.RemoveConfig n).counters n = none ∧
    (r.RemoveConfig n).RemoveConfig n = r.RemoveConfig n ∧
    (r.configs n = [] → r.counters n = none → r.RemoveConfig n = r) := by
  refine ⟨by simp [ModelRegistry.RemoveConfig, ModelRegistry.ConfigCount],
    ⟨"model \"" ++ n ++ "\" not found",
      by simp [ModelRegistry.GetModelConfig, ModelRegistry.RemoveConfig]⟩,
    by simp [ModelRegistry.RemoveConfig], ?_, ?_⟩
  · apply ModelRegistry.ext
    · funext m
      by_cases hm : m = n <;> simp [ModelRegistry.RemoveConfig, hm]
    · funext m
      by_cases hm : m = n <;> simp [ModelRegistry.RemoveConfig, hm]
  · intro h1 h2
    apply ModelRegistry.ext
    · funext m
      by_cases hm : m = n <;> simp [ModelRegistry.RemoveConfig, hm, h1]
    · funext m
      by_cases hm : m = n <;> simp [ModelRegistry.RemoveConfig, hm, h2]

/-- Witness for C8: removing the unregistered name `"x"` from the
single-record registry is a no-op. -/
theorem C8_unregister_witness :
    singleReg.configs "x" = [] ∧ singleReg.counters "x" = none ∧
    singleReg.RemoveConfig "x" = singleReg :=
  ⟨by decide, by decide,
   (C8_unregister singleReg "x").2.2.2.2 (by decide) (by decide)⟩

/-- Decidable equality for `Except` values, used to evaluate concrete
resolution outcomes. -/
instance {ε α : Type} [DecidableEq ε] [DecidableEq α] : DecidableEq (Except ε α) := fun a b =>
  match a, b with
  | Except.ok x, Except.ok y => decidable_of_iff (x = y) (by simp)
  | Except.error e, Except.error f => decidable_of_iff (e = f) (by simp)
  | Except.ok _, Except.error _ => isFalse (fun h => Except.noConfusion h)
  | Except.error _, Except.ok _ => isFalse (fun h => Except.noConfusion h)

/-- Counterexample for C1: on the freshly built registry
`{"m": [A, B, C]}` the first resolve returns B, not A (the counter
starts at 0 and `Add(1)` returns the incremented value 1, so the first
selected index is `1 % 3 = 1`); the config-level resolver of pkg/config
behaves the same way. -/
theorem C1_counterexample :
    ((NewModelRegistry [cfgA, cfgB, cfgC]).GetModelConfig "m").1 ≠ Except.ok cfgA ∧
    ((NewModelRegistry [cfgA, cfgB, cfgC]).GetModelConfig "m").1 = Except.ok cfgB ∧
    (Config.GetModelConfig { ModelList := [cfgA, cfgB, cfgC], rrCounters := fun _ => none } "m").1 =
      Except.ok cfgB := by
  refine ⟨by decide, by decide, by decide⟩

/-- Claim C1 (amended): for a registry freshly constructed with exactly
records A, B, C under the one logical name `"m"`, four sequential
resolves return B, then C, then A, then B again — the rotation starts
at the second record because `Add(1)` yields the post-increment value. -/
theorem C1_round_robin_sequence (A B C : ModelConfig)
    (hA : A.ModelName = "m") (hB : B.ModelName = "m") (hC : C.ModelName = "m") :
    (iterateResolve (NewModelRegistry [A, B, C]) "m" 4).1 =
      [Except.ok B, Except.ok C, Except.ok A, Except.ok B] := by
  have hfilter : [A, B, C].filter (fun c => c.ModelName = "m") = [A, B, C] := by
    simp [List.filter, hA, hB, hC]
  have hconf : (NewModelRegistry [A, B, C]).configs "m" = [A, B, C] := by
    rw [NewModelRegistry_configs, hfilter]
  have hctr : (NewModelRegistry [A, B, C]).counters "m" = some 0 := by
    rw [NewModelRegistry_counters, hfilter]
    simp
  have h := iterateResolve_multi 4 (NewModelRegistry [A, B, C]) "m" 0
    (by simp [hconf]) hctr (by norm_num [uint64Mod])
  rw [h.1, hconf]
  simp [List.range_succ]

/-- Witness for C1 (amended): the concrete records `cfgA`, `cfgB`,
`cfgC`. -/
theorem C1_round_robin_sequence_witness :
    cfgA.ModelName = "m" ∧ cfgB.ModelName = "m" ∧ cfgC.ModelName = "m" ∧
    (iterateResolve (NewModelRegistry [cfgA, cfgB, cfgC]) "m" 4).1 =
      [Except.ok cfgB, Except.ok cfgC, Except.ok cfgA, Except.ok cfgB] :=
  ⟨rfl, rfl, rfl, C1_round_robin_sequence cfgA cfgB cfgC rfl rfl rfl⟩

/-- A registry whose round-robin counter for `"m"` sits just below the
64-bit wrap-around boundary. -/
def wrapReg : ModelRegistry :=
  { configs := fun n => if n = "m" then [cfgA, cfgB, cfgC] else []
    counters := fun n => if n = "m" then some (uint64Mod - 2) else none }

/-- Counterexample for C4: when the `uint64` counter wraps around
during the window (counter at `2^64 - 2`, three resolves for a
three-record group), the selected indices are 0, 0, 1 — record A is
returned twice and record C never, so the N results are not a
permutation of the N records. -/
theorem C4_counterexample :
    (iterateResolve wrapReg "m" 3).1 = [Except.ok cfgA, Except.ok cfgA, Except.ok cfgB] ∧
    ¬ List.Perm (iterateResolve wrapReg "m" 3).1 ((wrapReg.configs "m").map Except.ok) := by
  have hres : (iterateResolve wrapReg "m" 3).1 =
      [Except.ok cfgA, Except.ok cfgA, Except.ok cfgB] := by decide
  refine ⟨hres, ?_⟩
  intro hperm
  rw [hres] at hperm
  have hc := hperm.count_eq (Except.ok cfgC)
  revert hc
  decide

/-- Claim C4 (amended): for a group of N>1 records whose counter value
c does not reach the 64-bit wrap-around during the window
(`c + N < 2^64`), N consecutive sequential resolves on an
otherwise-idle registry return each of the N records exactly once (the
result list is a permutation of the group). -/
theorem C4_round_robin_fairness (r : ModelRegistry) (n : String) (N c : Nat)
    (hN : (r.configs n).length = N) (h1 : 1 < N)
    (hc : r.counters n = some c) (hlt : c + N < uint64Mod) :
    List.Perm (iterateResolve r n N).1 ((r.configs n).map Except.ok) := by
  have h := iterateResolve_multi N r n c (by omega) hc hlt
  have hcomm : ∀ i : Nat, c + 1 + i = i + (c + 1) := fun i => by omega
  rw [h.1]
  simp only [hcomm]
  have hrot : (List.range N).map
      (fun i => (Except.ok ((r.configs n).getD ((i + (c + 1)) % (r.configs n).length) default) :
        Except String ModelConfig)) =
      ((r.configs n).rotate (c + 1)).map Except.ok := by
    apply List.ext_getElem
    · simp [hN]
    · intro i hi1 hi2
      simp only [List.getElem_map, List.getElem_range, List.getElem_rotate]
      rw [List.getD_eq_getElem _ _ (Nat.mod_lt _ (by omega))]
  rw [hrot]
  exact ((r.configs n).rotate_perm (c + 1)).map Except.ok

/-- Witness for C4 (amended): three resolves of the fresh three-record
registry cover all three records. -/
theorem C4_round_robin_fairness_witness :
    ((NewModelRegistry [cfgA, cfgB, cfgC]).configs "m").length = 3 ∧ 1 < 3 ∧
    (NewModelRegistry [cfgA, cfgB, cfgC]).counters "m" = some 0 ∧ 0 + 3 < uint64Mod ∧
    List.Perm (iterateResolve (NewModelRegistry [cfgA, cfgB, cfgC]) "m" 3).1
      (((NewModelRegistry [cfgA, cfgB, cfgC]).configs "m").map Except.ok) :=
  ⟨by decide, by decide, by decide, by decide,
   C4_round_robin_fairness (NewModelRegistry [cfgA, cfgB, cfgC]) "m" 3 0
     (by decide) (by decide) (by decide) (by decide)⟩

/-- Claim C2: in a three-candidate chain whose primary resolves to an
eligible endpoint and whose work invocation there fails with the
non-retriable `FormatError`, `execute` returns that classified error
with exactly one attempt record (naming the primary); since this holds
for every work function agreeing on the primary's endpoint, the work
function is never invoked for the second or third candidate. -/
theorem C2_nonretriable_short_circuit {α : Type}
    (reg : ModelRegistry) (cool : CooldownTracker) (now : Nat)
    (p f1 f2 : String) (e : ModelConfig) (work : ModelConfig → Except ErrorKind α)
    (hres : (reg.GetModelConfig p).1 = Except.ok e)
    (helig : cool.isEligible (endpointIdentity e) now = true)
    (hwork : work e = Except.error ErrorKind.FormatError) :
    (execute reg cool now p [f1, f2] work).1 = ExecResult.nonRetriable ErrorKind.FormatError ∧
    (execute reg cool now p [f1, f2] work).2.1 =
      [{ candidateName := p, chosenEndpoint := some (endpointIdentity e),
         outcome := Outcome.nonRetriableFailure, errorKind := some ErrorKind.FormatError }] := by
  cases hg : reg.GetModelConfig p with
  | mk res reg' =>
    rw [hg] at hres
    simp only at hres
    subst hres
    constructor <;>
      simp [execute, executeAux, hg, helig, hwork, retriable]

/-- A concrete primary-candidate config under logical name `"p"`. -/
def cfgP : ModelConfig := { ModelName := "p", Model := "prov/p" }

/-- A registry holding only the primary candidate's single endpoint. -/
def fallbackReg : ModelRegistry := NewModelRegistry [cfgP]

/-- A cooldown tracker with no entries. -/
def emptyTracker : CooldownTracker := { entries := fun _ => none }

/-- A work function that fails with `FormatError` on the primary's
endpoint and succeeds anywhere else. -/
def demoWork : ModelConfig → Except ErrorKind Nat :=
  fun c => if c.ModelName = "p" then Except.error ErrorKind.FormatError else Except.ok 0

/-- Witness for C2: the concrete chain `"p", "f1", "f2"`. -/
theorem C2_nonretriable_short_circuit_witness :
    (fallbackReg.GetModelConfig "p").1 = Except.ok cfgP ∧
    emptyTracker.isEligible (endpointIdentity cfgP) 0 = true ∧
    demoWork cfgP = Except.error ErrorKind.FormatError ∧
    (execute fallbackReg emptyTracker 0 "p" ["f1", "f2"] demoWork).1 =
      ExecResult.nonRetriable ErrorKind.FormatError ∧
    (execute fallbackReg emptyTracker 0 "p" ["f1", "f2"] demoWork).2.1 =
      [{ candidateName := "p", chosenEndpoint := some (endpointIdentity cfgP),
         outcome := Outcome.nonRetriableFailure, errorKind := some ErrorKind.FormatError }] := by
  have h := C2_nonretriable_short_circuit fallbackReg emptyTracker 0 "p" "f1" "f2" cfgP demoWork
    (by decide) rfl rfl
  exact ⟨by decide, rfl, rfl, h.1, h.2⟩

/-- Registry states reachable from `NewModelRegistry` by any sequence
of `AddConfig` and `RemoveConfig` calls. -/
inductive Reachable : ModelRegistry → Prop where
  | new (l : List ModelConfig) : Reachable (NewModelRegistry l)
  | add (r : ModelRegistry) (cfg : ModelConfig) : Reachable r → Reachable (r.AddConfig cfg)
  | remove (r : ModelRegistry) (n : String) : Reachable r → Reachable (r.RemoveConfig n)

theorem AddConfig_configs (r : ModelRegistry) (cfg : ModelConfig) (n : String) :
    (r.AddConfig cfg).configs n =
      if n = cfg.ModelName then r.configs n ++ [cfg] else r.configs n := rfl

theorem AddConfig_counters (r : ModelRegistry) (cfg : ModelConfig) :
    (r.AddConfig cfg).counters =
      if 1 < (r.configs cfg.ModelName ++ [cfg]).length ∧ r.counters cfg.ModelName = none then
        fun n => if n = cfg.ModelName then some 0 else r.counters n
      else r.counters := by
  simp only [ModelRegistry.AddConfig, eq_self_iff_true, if_true]

theorem reachable_counters_ne_none (s : ModelRegistry) (hs : Reachable s) :
    ∀ m, 1 < (s.configs m).length → s.counters m ≠ none := by
  induction hs with
  | new l =>
    intro m hlen
    rw [NewModelRegistry_configs] at hlen
    simp [NewModelRegistry_counters, hlen]
  | add r cfg _ ih =>
    intro m hlen
    rw [AddConfig_configs] at hlen
    rw [AddConfig_counters]
    by_cases hcond : 1 < (r.configs cfg.ModelName ++ [cfg]).length ∧ r.counters cfg.ModelName = none
    · rw [if_pos hcond]
      by_cases hm : m = cfg.ModelName
      · simp [hm]
      · rw [if_neg hm]
        rw [if_neg hm] at hlen
        exact ih m hlen
    · rw [if_neg hcond]
      by_cases hm : m = cfg.ModelName
      · subst hm
        rw [if_pos rfl] at hlen
        rcases not_and_or.mp hcond with hlen2 | hctr2
        · exact absurd hlen hlen2
        · exact hctr2
      · rw [if_neg hm] at hlen
        exact ih m hlen
  | remove r n _ ih =>
    intro m hlen
    by_cases hm : m = n
    · simp [ModelRegistry.RemoveConfig, hm] at hlen
    · simp only [ModelRegistry.RemoveConfig, if_neg hm] at hlen ⊢
      exact ih m hlen

/-- Claim C10: every registry reachable from `NewModelRegistry` via
`AddConfig`/`RemoveConfig` has a round-robin counter for every name
whose group holds more than one config; equivalently, the guard of the
missing-counter fallback branch of `GetModelConfig` (group larger than
one yet no counter) never holds on a reachable registry, so that
branch is unreachable. -/
theorem C10_counter_invariant (r : ModelRegistry) (hr : Reachable r) (n : String) :
    (1 < (r.configs n).length → ∃ c, r.counters n = some c) ∧
    ¬ (1 < (r.configs n).length ∧ r.counters n = none) := by
  have h := reachable_counters_ne_none r hr n
  constructor
  · intro hlen
    cases hc : r.counters n with
    | none => exact absurd hc (h hlen)
    | some c => exact ⟨c, rfl⟩
  · rintro ⟨hlen, hnone⟩
    exact h hlen hnone

/-- Witness for C10: a registry built by construction plus one
`AddConfig`. -/
theorem C10_counter_invariant_witness :
    (∃ c, ((NewModelRegistry [cfgA, cfgB]).AddConfig cfgC).counters "m" = some c) ∧
    ¬ (1 < (((NewModelRegistry [cfgA, cfgB]).AddConfig cfgC).configs "m").length ∧
       ((NewModelRegistry [cfgA, cfgB]).AddConfig cfgC).counters "m" = none) :=
  ⟨(C10_counter_invariant ((NewModelRegistry [cfgA, cfgB]).AddConfig cfgC)
      (Reachable.add _ cfgC (Reachable.new [cfgA, cfgB])) "m").1 (by decide),
   (C10_counter_invariant ((NewModelRegistry [cfgA, cfgB]).AddConfig cfgC)
      (Reachable.add _ cfgC (Reachable.new [cfgA, cfgB])) "m").2⟩

end DomeClaw
